import Mathlib

/-!
Verification of `.yamato/ruamel/jobs/projects/project_all.py` (class
`Project_AllJob`): a shallow embedding of the dependency-list construction
and job assembly, together with theorems settling the specification's
claims about it.

Python dictionary access `d["k"]` raises a `KeyError` when the key is
absent; we model the `editor` dictionary as a record of optional fields
whose accessors return `Except PyError`, and the whole construction as an
`Except`-valued computation whose sequencing mirrors the Python evaluation
order statement by statement.
-/

set_option autoImplicit false

namespace Graphics

/-- The error raised when a required dictionary key is absent
(`KeyError` in Python, `MissingFieldError` in the specification's taxonomy). -/
inductive PyError where
  | missingField (key : String)
  deriving DecidableEq, Repr

/-- A YAML scalar value, tagged with whether it is force-quoted.
Modelled from the spec: the serialization layer distinguishes plain
scalars from explicitly double-quoted ones
(`ruamel.yaml.scalarstring.DoubleQuotedScalarString`, imported as `dss`
on line 1 of the source but defined outside `src/`). -/
inductive YamlScalar where
  | plain (s : String)
  | doubleQuoted (s : String)
  deriving DecidableEq, Repr

/-- The underlying string of a YAML scalar.  In Python,
`DoubleQuotedScalarString` is a `str` subclass that compares equal to the
plain string it wraps. -/
def YamlScalar.val : YamlScalar → String
  | .plain s => s
  | .doubleQuoted s => s

/-- Modelled from the spec: `DoubleQuotedScalarString as dss` — wrapping a
string forces its YAML emission as an explicitly double-quoted scalar. -/
def dss (s : String) : YamlScalar :=
  .doubleQuoted s

/-- The `editor` dictionary.  The two keys this component reads are
`"version"` and `"rerun_strategy"`; each may be absent. -/
structure Editor where
  version : Option String
  rerun_strategy : Option String
  deriving DecidableEq, Repr

/-- `editor["version"]`: yields the value or raises a missing-key error. -/
def Editor.getVersion (e : Editor) : Except PyError String :=
  match e.version with
  | some v => .ok v
  | none => .error (.missingField "version")

/-- `editor["rerun_strategy"]`: yields the value or raises a missing-key error. -/
def Editor.getRerunStrategy (e : Editor) : Except PyError String :=
  match e.rerun_strategy with
  | some r => .ok r
  | none => .error (.missingField "rerun_strategy")

/-- One element `d` of `dependencies_in_all`: the three keys the loop reads. -/
structure DependencyEntry where
  platform_name : String
  api_name : String
  test_platform_names : List String
  deriving DecidableEq, Repr

/-- One element appended to the `dependencies` list:
`{'path': f'{file_name}#{job_id}', 'rerun': editor["rerun_strategy"]}`. -/
structure DependencyReference where
  path : String
  rerun : String
  deriving DecidableEq, Repr

/-- Modelled from the spec: the naming collaborator (`..utils.namer`, not
under `src/`) exposes three opaque deterministic key-generation functions;
we quantify over them. -/
structure Namer where
  project_job_id_all : String → String → String
  project_filepath_specific : String → String → String → String
  project_job_id_test : String → String → String → String → String → String

/-- The assembled serializable job definition (the spec's `JobDefinition`):
a name, an ordered dependency list, and a custom revision. -/
structure JobDefinition where
  name : Option String
  dependencies : List DependencyReference
  custom_revision : Option YamlScalar
  deriving DecidableEq, Repr

/-- A mutating call on the job-builder collaborator, recorded so the order
of builder operations is observable. -/
inductive YmlCall where
  | set_name
  | add_dependencies
  | add_var_custom_revision
  deriving DecidableEq, Repr

/-- Modelled from the spec: the job-builder collaborator `YMLJob`
(`..utils.yml_job`, not under `src/`): a mutable builder with operations
`set_name`, `add_dependencies`, `add_var_custom_revision` and a `.yml`
accessor yielding the assembled job definition.  Per the spec, the
serialization layer force-quotes version-like scalar values, so
`add_var_custom_revision` stores a double-quoted scalar.  We additionally
record the sequence of mutating calls in `calls`. -/
structure YMLJob where
  yml : JobDefinition
  calls : List YmlCall
  deriving DecidableEq, Repr

/-- `YMLJob()`: a fresh builder with nothing set. -/
def YMLJob.new : YMLJob :=
  { yml := { name := none, dependencies := [], custom_revision := none }, calls := [] }

/-- `job.set_name(name)`. -/
def YMLJob.set_name (j : YMLJob) (name : String) : YMLJob :=
  { yml := { j.yml with name := some name }, calls := j.calls ++ [.set_name] }

/-- `job.add_dependencies(deps)`: appends the given references, in order,
to the builder's dependency list. -/
def YMLJob.add_dependencies (j : YMLJob) (deps : List DependencyReference) : YMLJob :=
  { yml := { j.yml with dependencies := j.yml.dependencies ++ deps },
    calls := j.calls ++ [.add_dependencies] }

/-- `job.add_var_custom_revision(revision)`: pins the custom revision,
force-quoted for YAML emission. -/
def YMLJob.add_var_custom_revision (j : YMLJob) (revision : String) : YMLJob :=
  { yml := { j.yml with custom_revision := some (dss revision) },
    calls := j.calls ++ [.add_var_custom_revision] }

/-- The inner `for test_platform_name in d["test_platform_names"]:` loop of
`get_job_definition`, accumulating onto `acc` (the Python list being
appended to).  Each iteration computes `file_name`, reads
`editor["version"]` to compute `job_id`, then reads
`editor["rerun_strategy"]` while building the appended record — in that
order, as in the source. -/
def innerLoop (nm : Namer) (project_name : String) (editor : Editor)
    (d : DependencyEntry) :
    List DependencyReference → List String → Except PyError (List DependencyReference)
  | acc, [] => .ok acc
  | acc, test_platform_name :: rest =>
    let file_name := nm.project_filepath_specific project_name d.platform_name d.api_name
    match editor.getVersion with
    | .error err => .error err
    | .ok version =>
      let job_id := nm.project_job_id_test project_name d.platform_name d.api_name
        test_platform_name version
      match editor.getRerunStrategy with
      | .error err => .error err
      | .ok rerun =>
        innerLoop nm project_name editor d
          (acc ++ [{ path := file_name ++ "#" ++ job_id, rerun := rerun }]) rest

/-- The outer `for d in dependencies_in_all:` loop of `get_job_definition`. -/
def outerLoop (nm : Namer) (project_name : String) (editor : Editor) :
    List DependencyReference → List DependencyEntry → Except PyError (List DependencyReference)
  | acc, [] => .ok acc
  | acc, d :: rest =>
    match innerLoop nm project_name editor d acc d.test_platform_names with
    | .error err => .error err
    | .ok acc2 => outerLoop nm project_name editor acc2 rest

/-- `Project_AllJob.get_job_definition(project_name, editor,
dependencies_in_all)`: builds the dependency list, then constructs a
`YMLJob` and calls `set_name` (whose f-string reads `editor["version"]`),
`add_dependencies`, and `add_var_custom_revision(editor["version"])`, in
that order. -/
def get_job_definition (nm : Namer) (project_name : String) (editor : Editor)
    (dependencies_in_all : List DependencyEntry) : Except PyError YMLJob :=
  match outerLoop nm project_name editor [] dependencies_in_all with
  | .error err => .error err
  | .ok dependencies =>
    let job := YMLJob.new
    match editor.getVersion with
    | .error err => .error err
    | .ok v1 =>
      let job := job.set_name ("All " ++ project_name ++ " CI - " ++ v1)
      let job := job.add_dependencies dependencies
      match editor.getVersion with
      | .error err => .error err
      | .ok v2 => .ok (job.add_var_custom_revision v2)

/-- The constructed `Project_AllJob` object: the fields its `__init__`
assigns. -/
structure Project_AllJob where
  project_name : String
  job_id : String
  yml : JobDefinition
  deriving DecidableEq, Repr

/-- `Project_AllJob.__init__`: reads `editor["version"]` (while evaluating
the argument of `project_job_id_all`) before anything else, then calls
`get_job_definition` and keeps its `.yml`. -/
def Project_AllJob.construct (nm : Namer) (project_name : String) (editor : Editor)
    (dependencies_in_all : List DependencyEntry) : Except PyError Project_AllJob :=
  match editor.getVersion with
  | .error err => .error err
  | .ok version =>
    let job_id := nm.project_job_id_all project_name version
    match get_job_definition nm project_name editor dependencies_in_all with
    | .error err => .error err
    | .ok job =>
      .ok { project_name := project_name, job_id := job_id, yml := job.yml }

/-- The dependency reference the loop body emits for entry `d` and test
platform name `t`, given the editor's version `v` and rerun strategy `r`. -/
def depRef (nm : Namer) (project_name : String) (v r : String)
    (d : DependencyEntry) (t : String) : DependencyReference :=
  { path := nm.project_filepath_specific project_name d.platform_name d.api_name ++ "#"
      ++ nm.project_job_id_test project_name d.platform_name d.api_name t v,
    rerun := r }

/-! ### Concrete demonstration inputs, used by the witness theorems. -/

/-- A concrete instantiation of the opaque naming collaborator. -/
def demoNamer : Namer :=
  { project_job_id_all := fun pn v => pn ++ "_all_" ++ v,
    project_filepath_specific := fun pn pl api =>
      ".yamato/" ++ pn ++ "-" ++ pl ++ "-" ++ api ++ ".yml",
    project_job_id_test := fun pn pl api t v =>
      pn ++ "_" ++ pl ++ "_" ++ api ++ "_" ++ t ++ "_" ++ v }

/-- The spec's scenario editor: `{version: "2021.3", rerun_strategy: "on-new-revision"}`. -/
def demoEditor : Editor :=
  { version := some "2021.3", rerun_strategy := some "on-new-revision" }

/-- An editor dictionary without the `"version"` key. -/
def demoEditorNoVersion : Editor :=
  { version := none, rerun_strategy := some "on-new-revision" }

/-- An editor dictionary with a version but without the `"rerun_strategy"` key. -/
def demoEditorNoRerun : Editor :=
  { version := some "2021.3", rerun_strategy := none }

/-- The spec's scenario dependency entry. -/
def demoEntry : DependencyEntry :=
  { platform_name := "Win", api_name := "d3d11",
    test_platform_names := ["standalone", "editmode"] }

/-- The builder state `get_job_definition demoNamer "MyGame" demoEditor [demoEntry]`
evaluates to. -/
def demoJob : YMLJob :=
  { yml := { name := some "All MyGame CI - 2021.3",
             dependencies :=
               [ { path := ".yamato/MyGame-Win-d3d11.yml#MyGame_Win_d3d11_standalone_2021.3",
                   rerun := "on-new-revision" },
                 { path := ".yamato/MyGame-Win-d3d11.yml#MyGame_Win_d3d11_editmode_2021.3",
                   rerun := "on-new-revision" } ],
             custom_revision := some (dss "2021.3") },
    calls := [.set_name, .add_dependencies, .add_var_custom_revision] }

/-! ### Characterization lemmas -/

theorem getVersion_eq_ok (e : Editor) (v : String) (hv : e.version = some v) :
    e.getVersion = .ok v := by
  simp [Editor.getVersion, hv]

theorem getRerunStrategy_eq_ok (e : Editor) (r : String) (hr : e.rerun_strategy = some r) :
    e.getRerunStrategy = .ok r := by
  simp [Editor.getRerunStrategy, hr]

theorem innerLoop_ok (nm : Namer) (pn : String) (e : Editor) (d : DependencyEntry)
    (v r : String) (hv : e.version = some v) (hr : e.rerun_strategy = some r) :
    ∀ (ts : List String) (acc : List DependencyReference),
      innerLoop nm pn e d acc ts = .ok (acc ++ ts.map (depRef nm pn v r d)) := by
  intro ts
  induction ts with
  | nil => intro acc; simp [innerLoop]
  | cons t rest ih =>
    intro acc
    simp only [innerLoop, getVersion_eq_ok e v hv, getRerunStrategy_eq_ok e r hr, ih]
    simp [depRef]

theorem outerLoop_ok (nm : Namer) (pn : String) (e : Editor)
    (v r : String) (hv : e.version = some v) (hr : e.rerun_strategy = some r) :
    ∀ (ds : List DependencyEntry) (acc : List DependencyReference),
      outerLoop nm pn e acc ds =
        .ok (acc ++ ds.flatMap fun d => d.test_platform_names.map (depRef nm pn v r d)) := by
  intro ds
  induction ds with
  | nil => intro acc; simp [outerLoop]
  | cons d rest ih =>
    intro acc
    simp only [outerLoop, innerLoop_ok nm pn e d v r hv hr, ih]
    simp [List.append_assoc]

theorem get_job_definition_ok (nm : Namer) (pn : String) (e : Editor)
    (deps : List DependencyEntry) (v r : String)
    (hv : e.version = some v) (hr : e.rerun_strategy = some r) :
    get_job_definition nm pn e deps =
      .ok { yml := { name := some ("All " ++ pn ++ " CI - " ++ v),
                     dependencies :=
                       deps.flatMap fun d => d.test_platform_names.map (depRef nm pn v r d),
                     custom_revision := some (dss v) },
            calls := [.set_name, .add_dependencies, .add_var_custom_revision] } := by
  simp [get_job_definition, outerLoop_ok nm pn e v r hv hr, getVersion_eq_ok e v hv,
    YMLJob.new, YMLJob.set_name, YMLJob.add_dependencies, YMLJob.add_var_custom_revision]

theorem innerLoop_rerun_none (nm : Namer) (pn : String) (e : Editor) (d : DependencyEntry)
    (hr : e.rerun_strategy = none) :
    ∀ (ts : List String) (acc out : List DependencyReference),
      innerLoop nm pn e d acc ts = .ok out → ts = [] ∧ out = acc := by
  intro ts acc out h
  cases ts with
  | nil =>
    simp [innerLoop] at h
    exact ⟨rfl, h.symm⟩
  | cons t rest =>
    cases hv : e.version with
    | none => simp [innerLoop, Editor.getVersion, hv] at h
    | some v => simp [innerLoop, Editor.getVersion, hv, Editor.getRerunStrategy, hr] at h

theorem outerLoop_rerun_none (nm : Namer) (pn : String) (e : Editor)
    (hr : e.rerun_strategy = none) :
    ∀ (ds : List DependencyEntry) (acc out : List DependencyReference),
      outerLoop nm pn e acc ds = .ok out →
      out = acc ∧ ∀ d ∈ ds, d.test_platform_names = [] := by
  intro ds
  induction ds with
  | nil =>
    intro acc out h
    simp [outerLoop] at h
    exact ⟨h.symm, by simp⟩
  | cons d rest ih =>
    intro acc out h
    rw [outerLoop] at h
    cases hi : innerLoop nm pn e d acc d.test_platform_names with
    | error err => rw [hi] at h; simp at h
    | ok acc2 =>
      rw [hi] at h
      obtain ⟨hts, hacc⟩ := innerLoop_rerun_none nm pn e d hr _ _ _ hi
      rw [hacc] at h
      obtain ⟨ho, hall⟩ := ih acc out h
      refine ⟨ho, ?_⟩
      intro d' hd'
      rcases List.mem_cons.mp hd' with rfl | hd'
      · exact hts
      · exact hall d' hd'

theorem innerLoop_version_none (nm : Namer) (pn : String) (e : Editor) (d : DependencyEntry)
    (hv : e.version = none) :
    ∀ (ts : List String) (acc : List DependencyReference), ts ≠ [] →
      innerLoop nm pn e d acc ts = .error (.missingField "version") := by
  intro ts acc hts
  cases ts with
  | nil => exact absurd rfl hts
  | cons t rest => simp [innerLoop, Editor.getVersion, hv]

theorem outerLoop_version_none (nm : Namer) (pn : String) (e : Editor)
    (hv : e.version = none) :
    ∀ (ds : List DependencyEntry) (acc : List DependencyReference),
      outerLoop nm pn e acc ds = .ok acc ∨
      outerLoop nm pn e acc ds = .error (.missingField "version") := by
  intro ds
  induction ds with
  | nil => intro acc; left; simp [outerLoop]
  | cons d rest ih =>
    intro acc
    by_cases hts : d.test_platform_names = []
    · have hi : innerLoop nm pn e d acc d.test_platform_names = .ok acc := by
        rw [hts]; simp [innerLoop]
      rw [outerLoop, hi]
      exact ih acc
    · right
      rw [outerLoop, innerLoop_version_none nm pn e d hv _ acc hts]

theorem get_job_definition_version_none (nm : Namer) (pn : String) (e : Editor)
    (deps : List DependencyEntry) (hv : e.version = none) :
    get_job_definition nm pn e deps = .error (.missingField "version") := by
  rcases outerLoop_version_none nm pn e hv deps [] with h | h <;>
    simp [get_job_definition, h, Editor.getVersion, hv]

theorem get_job_definition_ok_inv (nm : Namer) (pn : String) (e : Editor)
    (deps : List DependencyEntry) (job : YMLJob)
    (h : get_job_definition nm pn e deps = .ok job) :
    ∃ v ds, e.version = some v ∧ outerLoop nm pn e [] deps = .ok ds ∧
      job = { yml := { name := some ("All " ++ pn ++ " CI - " ++ v),
                       dependencies := ds, custom_revision := some (dss v) },
              calls := [.set_name, .add_dependencies, .add_var_custom_revision] } := by
  unfold get_job_definition at h
  cases ho : outerLoop nm pn e [] deps with
  | error err => rw [ho] at h; simp at h
  | ok ds =>
    rw [ho] at h
    cases hv : e.version with
    | none => simp [Editor.getVersion, hv] at h
    | some v =>
      simp [Editor.getVersion, hv, YMLJob.new, YMLJob.set_name, YMLJob.add_dependencies,
        YMLJob.add_var_custom_revision] at h
      exact ⟨v, ds, rfl, rfl, h.symm⟩

/-! ### Claims -/

/-- Claim C1: for every project name, editor, and list of dependency
entries, a successfully built job definition has exactly
`sum(len(e.test_platform_names) for e in dependency_entries)` dependency
references. -/
theorem C1_dependency_count (nm : Namer) (pn : String) (e : Editor)
    (deps : List DependencyEntry) (job : YMLJob)
    (h : get_job_definition nm pn e deps = .ok job) :
    job.yml.dependencies.length = (deps.map fun d => d.test_platform_names.length).sum := by
  obtain ⟨v, ds, hv, ho, rfl⟩ := get_job_definition_ok_inv nm pn e deps job h
  cases hr : e.rerun_strategy with
  | none =>
    obtain ⟨rfl, hall⟩ := outerLoop_rerun_none nm pn e hr deps [] ds ho
    have hz : ∀ x ∈ deps.map (fun d => d.test_platform_names.length), x = 0 := by
      intro x hx
      obtain ⟨d, hd, rfl⟩ := List.mem_map.mp hx
      simp [hall d hd]
    simp [List.sum_eq_zero hz]
  | some r =>
    rw [outerLoop_ok nm pn e v r hv hr deps []] at ho
    simp only [List.nil_append, Except.ok.injEq] at ho
    rw [← ho, List.length_flatMap]
    have hfg : (List.length ∘ fun d : DependencyEntry =>
        List.map (depRef nm pn v r d) d.test_platform_names) =
        fun d : DependencyEntry => d.test_platform_names.length := by
      funext d
      simp
    rw [hfg]

/-- Witness for C1 at the spec's scenario input. -/
theorem C1_dependency_count_witness :
    demoJob.yml.dependencies.length =
      ([demoEntry].map fun d => d.test_platform_names.length).sum :=
  C1_dependency_count demoNamer "MyGame" demoEditor [demoEntry] demoJob rfl

/-- Claim C2: the dependency references of a successfully built job appear
exactly in input iteration order — outer entries in list order, and within
each entry its test platform names in list order (the `flatMap`/`map`
of the per-iteration reference `depRef`). -/
theorem C2_dependency_order (nm : Namer) (pn : String) (e : Editor)
    (deps : List DependencyEntry) (v r : String) (job : YMLJob)
    (hv : e.version = some v) (hr : e.rerun_strategy = some r)
    (h : get_job_definition nm pn e deps = .ok job) :
    job.yml.dependencies =
      deps.flatMap fun d => d.test_platform_names.map (depRef nm pn v r d) := by
  rw [get_job_definition_ok nm pn e deps v r hv hr] at h
  injection h with h
  rw [← h]

/-- Witness for C2 at the spec's scenario input. -/
theorem C2_dependency_order_witness :
    demoJob.yml.dependencies =
      [demoEntry].flatMap fun d =>
        d.test_platform_names.map (depRef demoNamer "MyGame" "2021.3" "on-new-revision" d) :=
  C2_dependency_order demoNamer "MyGame" demoEditor [demoEntry] "2021.3" "on-new-revision"
    demoJob rfl rfl rfl

/-- Claim C3: for every entry `d` of the input and every name `t` in
`d.test_platform_names`, the built job contains the dependency reference
whose path is `project_filepath_specific(project_name, d.platform_name,
d.api_name) ++ "#" ++ project_job_id_test(project_name, d.platform_name,
d.api_name, t, editor.version)` and whose rerun is
`editor.rerun_strategy`. -/
theorem C3_dependency_record (nm : Namer) (pn : String) (e : Editor)
    (deps : List DependencyEntry) (v r : String) (job : YMLJob)
    (d : DependencyEntry) (t : String)
    (hv : e.version = some v) (hr : e.rerun_strategy = some r)
    (h : get_job_definition nm pn e deps = .ok job)
    (hd : d ∈ deps) (ht : t ∈ d.test_platform_names) :
    ({ path := nm.project_filepath_specific pn d.platform_name d.api_name ++ "#"
         ++ nm.project_job_id_test pn d.platform_name d.api_name t v,
       rerun := r } : DependencyReference) ∈ job.yml.dependencies := by
  rw [get_job_definition_ok nm pn e deps v r hv hr] at h
  injection h with h
  rw [← h]
  exact List.mem_flatMap.mpr ⟨d, hd, List.mem_map.mpr ⟨t, ht, rfl⟩⟩

/-- Witness for C3 at the spec's scenario input and its first test platform. -/
theorem C3_dependency_record_witness :
    ({ path := ".yamato/MyGame-Win-d3d11.yml#MyGame_Win_d3d11_standalone_2021.3",
       rerun := "on-new-revision" } : DependencyReference) ∈ demoJob.yml.dependencies :=
  C3_dependency_record demoNamer "MyGame" demoEditor [demoEntry] "2021.3" "on-new-revision"
    demoJob demoEntry "standalone" rfl rfl rfl (by simp) (by simp [demoEntry])

/-- Claim C4: the name set on a successfully built job is exactly the
formatted string `"All {project_name} CI - {editor.version}"`. -/
theorem C4_job_name (nm : Namer) (pn : String) (e : Editor)
    (deps : List DependencyEntry) (v : String) (job : YMLJob)
    (hv : e.version = some v)
    (h : get_job_definition nm pn e deps = .ok job) :
    job.yml.name = some ("All " ++ pn ++ " CI - " ++ v) := by
  obtain ⟨v2, ds, hv2, ho, rfl⟩ := get_job_definition_ok_inv nm pn e deps job h
  rw [hv] at hv2
  injection hv2 with hv2
  rw [hv2]

/-- Witness for C4 at the spec's scenario input. -/
theorem C4_job_name_witness :
    demoJob.yml.name = some "All MyGame CI - 2021.3" :=
  C4_job_name demoNamer "MyGame" demoEditor [demoEntry] "2021.3" demoJob rfl rfl

/-- Claim C5: the custom revision set on a successfully built job equals
`editor.version` (as a string value; the stored scalar is the force-quoted
wrapping of that string, which compares equal to it). -/
theorem C5_custom_revision (nm : Namer) (pn : String) (e : Editor)
    (deps : List DependencyEntry) (v : String) (job : YMLJob)
    (hv : e.version = some v)
    (h : get_job_definition nm pn e deps = .ok job) :
    Option.map YamlScalar.val job.yml.custom_revision = some v := by
  obtain ⟨v2, ds, hv2, ho, rfl⟩ := get_job_definition_ok_inv nm pn e deps job h
  rw [hv] at hv2
  injection hv2 with hv2
  rw [hv2]
  rfl

/-- Witness for C5 at the spec's scenario input. -/
theorem C5_custom_revision_witness :
    Option.map YamlScalar.val demoJob.yml.custom_revision = some "2021.3" :=
  C5_custom_revision demoNamer "MyGame" demoEditor [demoEntry] "2021.3" demoJob rfl rfl

/-- Claim C6: when the editor has no `version` field, constructing
`Project_AllJob` fails with the missing-key error for `"version"`, for
every naming collaborator and every dependency list — in particular the
failure happens before any dependency entry is processed, since the result
does not depend on `nm` or on `deps` at all. -/
theorem C6_missing_version_fails_fast (nm : Namer) (pn : String) (e : Editor)
    (deps : List DependencyEntry) (hv : e.version = none) :
    Project_AllJob.construct nm pn e deps = .error (.missingField "version") := by
  simp [Project_AllJob.construct, Editor.getVersion, hv]

/-- Witness for C6: a version-less editor with a nonempty dependency list. -/
theorem C6_missing_version_fails_fast_witness :
    Project_AllJob.construct demoNamer "MyGame" demoEditorNoVersion [demoEntry] =
      .error (.missingField "version") :=
  C6_missing_version_fails_fast demoNamer "MyGame" demoEditorNoVersion [demoEntry] rfl

/-- Claim C7: with an editor containing both `version` and
`rerun_strategy`, the builder succeeds on an empty dependency-entry list
and the resulting job definition's dependency list is empty. -/
theorem C7_empty_dependencies (nm : Namer) (pn : String) (e : Editor) (v r : String)
    (hv : e.version = some v) (hr : e.rerun_strategy = some r) :
    (Project_AllJob.construct nm pn e []).map (fun p => p.yml.dependencies) =
      .ok ([] : List DependencyReference) := by
  simp [Project_AllJob.construct, Editor.getVersion, hv,
    get_job_definition_ok nm pn e [] v r hv hr, Except.map]

/-- Witness for C7 at the spec's scenario editor. -/
theorem C7_empty_dependencies_witness :
    (Project_AllJob.construct demoNamer "MyGame" demoEditor []).map
        (fun p => p.yml.dependencies) =
      .ok ([] : List DependencyReference) :=
  C7_empty_dependencies demoNamer "MyGame" demoEditor "2021.3" "on-new-revision" rfl rfl

/-- Claim C8: the custom revision of a successfully built job is emitted
as an explicitly double-quoted YAML scalar wrapping `editor.version`. -/
theorem C8_double_quoted_revision (nm : Namer) (pn : String) (e : Editor)
    (deps : List DependencyEntry) (job : YMLJob)
    (h : get_job_definition nm pn e deps = .ok job) :
    ∃ v, e.version = some v ∧
      job.yml.custom_revision = some (YamlScalar.doubleQuoted v) := by
  obtain ⟨v, ds, hv, ho, rfl⟩ := get_job_definition_ok_inv nm pn e deps job h
  exact ⟨v, hv, rfl⟩

/-- Witness for C8 at the spec's scenario input. -/
theorem C8_double_quoted_revision_witness :
    ∃ v, demoEditor.version = some v ∧
      demoJob.yml.custom_revision = some (YamlScalar.doubleQuoted v) :=
  C8_double_quoted_revision demoNamer "MyGame" demoEditor [demoEntry] demoJob rfl

/-- Claim C9: on every successful construction, the mutating calls made on
the job-builder collaborator are exactly `set_name`, then
`add_dependencies`, then `add_var_custom_revision`, with nothing in
between. -/
theorem C9_call_order (nm : Namer) (pn : String) (e : Editor)
    (deps : List DependencyEntry) (job : YMLJob)
    (h : get_job_definition nm pn e deps = .ok job) :
    job.calls = [.set_name, .add_dependencies, .add_var_custom_revision] := by
  obtain ⟨v, ds, hv, ho, rfl⟩ := get_job_definition_ok_inv nm pn e deps job h
  rfl

/-- Witness for C9 at the spec's scenario input. -/
theorem C9_call_order_witness :
    demoJob.calls = [.set_name, .add_dependencies, .add_var_custom_revision] :=
  C9_call_order demoNamer "MyGame" demoEditor [demoEntry] demoJob rfl

/-- Claim C10: with an empty dependency-entry list, `rerun_strategy` is
never read, so construction succeeds for an editor that has a `version`
but no `rerun_strategy` field. -/
theorem C10_no_rerun_access_when_empty (nm : Namer) (pn : String) (e : Editor) (v : String)
    (hv : e.version = some v) (_hr : e.rerun_strategy = none) :
    Project_AllJob.construct nm pn e [] =
      .ok { project_name := pn, job_id := nm.project_job_id_all pn v,
            yml := { name := some ("All " ++ pn ++ " CI - " ++ v),
                     dependencies := [], custom_revision := some (dss v) } } := by
  simp [Project_AllJob.construct, get_job_definition, outerLoop, Editor.getVersion, hv,
    YMLJob.new, YMLJob.set_name, YMLJob.add_dependencies, YMLJob.add_var_custom_revision]

/-- Witness for C10 with a concrete rerun-less editor. -/
theorem C10_no_rerun_access_when_empty_witness :
    Project_AllJob.construct demoNamer "MyGame" demoEditorNoRerun [] =
      .ok { project_name := "MyGame", job_id := demoNamer.project_job_id_all "MyGame" "2021.3",
            yml := { name := some "All MyGame CI - 2021.3",
                     dependencies := [], custom_revision := some (dss "2021.3") } } :=
  C10_no_rerun_access_when_empty demoNamer "MyGame" demoEditorNoRerun "2021.3" rfl rfl

end Graphics
